import Mathlib

/-!
Verification development for the JobVision exploratory-data-analysis
repository.  The cleaning pipeline (`preprocess.py`) and the per-analysis
normalizer functions (`visualize_*.py`) are shallowly embedded below:
a table is a list of rows, a row an association list from column name to
cell value, and every pandas column operation becomes an explicit map
over rows.  Persian text from the source is written with `\uXXXX`
escapes so that the exact code points (including the Bengali-digit
homoglyphs present in one condition of `standardize_company_size`)
are visible.
-/

namespace JobVision

/-- Cell value of a table, mirroring the scalar values a pandas
object column can hold after `read_csv`: NaN (missing), bool, int,
float (modelled as a rational) or str. -/
inductive Value where
  | vNull : Value
  | vBool (b : Bool) : Value
  | vInt (n : Int) : Value
  | vFloat (q : ℚ) : Value
  | vStr (s : String) : Value
deriving DecidableEq, Repr

/-- A row: association list from column name to cell value. -/
abbrev Row := List (String × Value)

/-- A data frame: the column list plus one association-list row per record. -/
structure DF where
  cols : List String
  rows : List Row
deriving DecidableEq, Repr

/- ## Character / string machinery (Python `str.replace`, `in`, `lower`) -/

/-- Case-sensitive character equality. -/
def charEq (a b : Char) : Bool := a == b

/-- Case-insensitive character equality, as produced by `re.IGNORECASE`
on the ASCII patterns used by the translation dictionary (characters
without a case mapping compare as themselves). -/
def charEqCI (a b : Char) : Bool := a.toLower == b.toLower

/-- Does `pat` start the list `l`, comparing characters with `eqc`? -/
def isPrefixWith (eqc : Char → Char → Bool) : List Char → List Char → Bool
  | [], _ => true
  | _ :: _, [] => false
  | p :: ps, c :: cs => eqc p c && isPrefixWith eqc ps cs

/-- Does `l` contain `pat` as a contiguous sublist (Python `pat in s`)? -/
def containsWith (eqc : Char → Char → Bool) (pat : List Char) : List Char → Bool
  | [] => pat.isEmpty
  | c :: cs => isPrefixWith eqc pat (c :: cs) || containsWith eqc pat cs

/-- Fuel-indexed replacement of every leftmost non-overlapping occurrence
of `pat` by `repl`, the semantics of Python `str.replace` (and of
`re.sub` on an escaped literal pattern).  The fuel is the length of the
processed list, so the `0` case is unreachable on the intended calls.
The empty pattern (never used by the source) is treated as a no-op. -/
def replaceWithF (eqc : Char → Char → Bool) (pat repl : List Char) :
    Nat → List Char → List Char
  | _, [] => []
  | 0, l => l
  | Nat.succ f, c :: cs =>
      if pat.isEmpty then c :: replaceWithF eqc pat repl f cs
      else if isPrefixWith eqc pat (c :: cs) then
        repl ++ replaceWithF eqc pat repl f (List.drop (pat.length - 1) cs)
      else c :: replaceWithF eqc pat repl f cs

/-- Replace every occurrence of `pat` in `l` by `repl`. -/
def replaceWith (eqc : Char → Char → Bool) (pat repl l : List Char) : List Char :=
  replaceWithF eqc pat repl l.length l

/-- Python `s.replace(pat, repl)` (literal, case-sensitive). -/
def pyReplace (pat repl s : String) : String :=
  String.mk (replaceWith charEq pat.data repl.data s.data)

/-- Pandas `.str.replace(pat, repl, regex=False, case=False)`: literal,
case-insensitive replacement of every occurrence. -/
def pyReplaceCI (pat repl s : String) : String :=
  String.mk (replaceWith charEqCI pat.data repl.data s.data)

/-- Python `pat in s` (literal substring test). -/
def pyContainsStr (pat s : String) : Bool := containsWith charEq pat.data s.data

/-- Case-insensitive substring test (occurrence in the sense of the
case-insensitive dictionary pass). -/
def containsCI (pat s : String) : Bool := containsWith charEqCI pat.data s.data

/-- Python `s.lower()` restricted to ASCII case mapping, the only case
mapping exercised by the source keywords. -/
def pyLower (s : String) : String := String.mk (s.data.map Char.toLower)

/- ## Value-level coercions -/

/-- Decimal digits of a rational in `[0,1)`, fuel-bounded. -/
def decimalDigits : Nat → ℚ → List Char
  | 0, _ => []
  | Nat.succ f, q =>
      if q = 0 then []
      else
        let d := (q * 10).floor
        Char.ofNat (48 + d.toNat) :: decimalDigits f (q * 10 - d)

/-- Python `str(value)` as applied by `astype(str)` to a cell: NaN
renders as the string `nan`, booleans as `True`/`False`.  Float
rendering approximates Python repr on simple decimals; no theorem
below depends on the float case. -/
def pyStr : Value → String
  | .vNull => "nan"
  | .vBool true => "True"
  | .vBool false => "False"
  | .vInt n => toString n
  | .vFloat q =>
      let sgn := if q < 0 then "-" else ""
      let a := |q|
      let frac := decimalDigits 17 (a - a.floor)
      sgn ++ toString a.floor ++ "." ++ (if frac.isEmpty then "0" else String.mk frac)
  | .vStr s => s

/-- Python truthiness of a cell value, the semantics of
`astype(bool)` on an object column: NaN (a float) is truthy, the
empty string is falsy, zero is falsy. -/
def truthy : Value → Bool
  | .vNull => true
  | .vBool b => b
  | .vInt n => n != 0
  | .vFloat q => q != 0
  | .vStr s => s != ""

/-- The cell transform of `df[col].astype(bool)`. -/
def astypeBool (v : Value) : Value := .vBool (truthy v)

/- ## Numeric parsing (`pd.to_numeric(..., errors="coerce")`) -/

/-- Numeric value of an ASCII digit, if any. -/
def digitVal (c : Char) : Option Nat :=
  if 48 ≤ c.toNat ∧ c.toNat ≤ 57 then some (c.toNat - 48) else none

/-- Maximal run of leading digits plus the remainder. -/
def takeDigits : List Char → (List Nat × List Char)
  | [] => ([], [])
  | c :: cs =>
      match digitVal c with
      | some d => let r := takeDigits cs; (d :: r.1, r.2)
      | none => ([], c :: cs)

/-- Natural number denoted by a digit list. -/
def natOfDigits (ds : List Nat) : Nat := ds.foldl (fun a d => a * 10 + d) 0

/-- Exponent digits: requires at least one digit and full consumption. -/
def expDigits (l : List Char) : Option Nat :=
  let r := takeDigits l
  if r.1.isEmpty || !r.2.isEmpty then none else some (natOfDigits r.1)

/-- Unsigned decimal: digits, optionally with a fractional part. -/
def parseUnsigned (l : List Char) : Option (ℚ × List Char) :=
  let r := takeDigits l
  match r.2 with
  | c :: cs =>
      if c = Char.ofNat 46 then
        let r2 := takeDigits cs
        if r.1.isEmpty && r2.1.isEmpty then none
        else some ((natOfDigits r.1 : ℚ) + (natOfDigits r2.1 : ℚ) / (10 : ℚ) ^ r2.1.length, r2.2)
      else if r.1.isEmpty then none else some ((natOfDigits r.1 : ℚ), c :: cs)
  | [] => if r.1.isEmpty then none else some ((natOfDigits r.1 : ℚ), [])

/-- Unsigned decimal with optional exponent, requiring full consumption. -/
def parseBody (l : List Char) : Option ℚ :=
  match parseUnsigned l with
  | none => none
  | some (q, rest) =>
      match rest with
      | [] => some q
      | c :: cs =>
          if c = 'e' || c = 'E' then
            match cs with
            | [] => none
            | d :: ds =>
                if d = '-' then (expDigits ds).map (fun n => q / (10 : ℚ) ^ n)
                else if d = '+' then (expDigits ds).map (fun n => q * (10 : ℚ) ^ n)
                else (expDigits (d :: ds)).map (fun n => q * (10 : ℚ) ^ n)
          else none

/-- Number denoted by a string under `pd.to_numeric`: surrounding
spaces stripped, optional sign, decimal digits with optional fraction
and exponent; anything else fails.  (The `inf`/`nan` literals accepted
by pandas are not modelled; no theorem depends on them.) -/
def parseNumber (s : String) : Option ℚ :=
  let l := s.data.dropWhile (fun c => c = ' ')
  let l := (l.reverse.dropWhile (fun c => c = ' ')).reverse
  match l with
  | [] => none
  | c :: cs =>
      if c = '-' then (parseBody cs).map (fun q => -q)
      else if c = '+' then parseBody cs
      else parseBody (c :: cs)

/-- The cell transform of `pd.to_numeric(df[col], errors="coerce")`:
numbers pass through, booleans become 0/1, strings are parsed, and an
unparsable string becomes NaN. -/
def toNumeric : Value → Value
  | .vNull => .vNull
  | .vBool b => .vInt (if b then 1 else 0)
  | .vInt n => .vInt n
  | .vFloat q => .vFloat q
  | .vStr s =>
      match parseNumber s with
      | some q => .vFloat q
      | none => .vNull

/- ## Pipeline stages of `preprocess_job_data` (src/preprocess.py) -/

/-- Map `f` over every cell of a row whose key is `c`. -/
def mapKey (c : String) (f : Value → Value) (r : Row) : Row :=
  r.map (fun p => if p.1 = c then (p.1, f p.2) else p)

/-- Apply the cell transform `f` to column `c` of every row
(`df[c] = df[c].<op>`). -/
def applyCol (c : String) (f : Value → Value) (df : DF) : DF :=
  { df with rows := df.rows.map (mapKey c f) }

/-- Column Standardization rename rule: strip a leading `Jobpost_`,
else rewrite a leading `Comany_` to `Company_`, else keep. -/
def renameCol (c : String) : String :=
  if isPrefixWith charEq "Jobpost_".data c.data then String.mk (c.data.drop 8)
  else if isPrefixWith charEq "Comany_".data c.data then pyReplace "Comany_" "Company_" c
  else c

/-- Stage 3a: `df.rename(columns=rename_map)`. -/
def renameStage (df : DF) : DF :=
  { cols := df.cols.map renameCol,
    rows := df.rows.map (fun r => r.map (fun p => (renameCol p.1, p.2))) }

/-- The fixed list `cols_to_drop`. -/
def cols_to_drop : List String :=
  ["RowNumber", "ProvinceEn", "WorkTypeEn", "IndustryEn", "BenefitEn",
   "CityEn", "CompanyOwnershipTypesEn", "SizeEn", "ActivityTypeEn",
   "Company_ProvinceEn"]

/-- Stage 3b: `df.drop(columns=existing_cols_to_drop)`. -/
def dropStage (df : DF) : DF :=
  { cols := df.cols.filter (fun c => !cols_to_drop.contains c),
    rows := df.rows.map (fun r => r.filter (fun p => !cols_to_drop.contains p.1)) }

/-- The central translation dictionary `english_to_persian_map`.
The Python dict literal assigns the key `/` twice (`'،'` then `'-'`);
the dict therefore holds a single `/` entry, at its first-insertion
position, with the last-assigned value `-`. -/
def english_to_persian_map : List (String × String) :=
  [(".net", "دات نت"),
   ("net.", "دات نت"),
   ("net core", "دات نت کر"),
   ("HSE", "بهداشت، ایمنی و محیط زیست"),
   ("UI/UX", "رابط و تجربه کاربری"),
   ("DevOps", "دواپس"),
   ("Sys-Admin", "ادمین سیستم"),
   ("MDF", "ام‌دی‌اف"),
   ("Back-End", "بک-اند"),
   ("Front-End", "فرانت-اند"),
   ("Full-Stack", "فول-استک"),
   ("IT", "فناوری اطلاعات"),
   ("/", "-"),
   ("and", "و"),
   ("with", "با"),
   ("for", "برای"),
   ("coremvc", "دات‌نت کر ام‌وی‌سی")]

/-- The fixed list `columns_to_clean`. -/
def columns_to_clean : List String :=
  ["MainJobCategory", "IndustryFa", "Company_IndustryFa", "RawTitle"]

/-- Separator normalization: `.str.replace(" / ", "، ", regex=False)`. -/
def sepNormalize (s : String) : String := pyReplace " / " "، " s

/-- The dictionary pass: one case-insensitive literal replacement per
entry, in dictionary order. -/
def dictPass (s : String) : String :=
  english_to_persian_map.foldl (fun acc p => pyReplaceCI p.1 p.2 acc) s

/-- Field-Translator string transform: separator normalization then the
dictionary pass. -/
def translateString (s : String) : String := dictPass (sepNormalize s)

/-- Field-Translator cell transform: `astype(str)` first, then the
string replacements (so every resulting cell is a string). -/
def translateCell (v : Value) : Value := .vStr (translateString (pyStr v))

/-- One presence-guarded per-column pass: `if col in df.columns:
df[col] = df[col].<op>`. -/
def stepApply (f : Value → Value) (d : DF) (c : String) : DF :=
  if c ∈ d.cols then applyCol c f d else d

/-- Stage 4: the translation loop over `columns_to_clean`, guarded by
column presence. -/
def translateStage (df : DF) : DF :=
  columns_to_clean.foldl (stepApply translateCell) df

/-- The sentinel label `نامشخص` ("unspecified"). -/
def unspecLabel : String := "نامشخص"

/-- The fill table `categorical_fills`, in dict order. -/
def categorical_fills : List (String × Value) :=
  [("ProvinceFa", .vStr unspecLabel),
   ("WorkTypeFa", .vStr unspecLabel),
   ("MainJobCategory", .vStr unspecLabel),
   ("RequiredExperienceYears", .vInt 0)]

/-- The cell transform of `fillna(fill)`: only NaN is replaced. -/
def fillCell (fill : Value) (v : Value) : Value := if v = .vNull then fill else v

/-- One presence-guarded fill pass for a `(column, fill)` pair. -/
def fillStep (d : DF) (p : String × Value) : DF :=
  if p.1 ∈ d.cols then applyCol p.1 (fillCell p.2) d else d

/-- Stage 5: `fillna` over `categorical_fills`, guarded by presence. -/
def fillStage (df : DF) : DF :=
  categorical_fills.foldl fillStep df

/-- The fixed list `bool_cols`. -/
def bool_cols : List String :=
  ["SalaryCanBeShown", "RequiredRelatedExperienceInThisIndustry",
   "HasDisabilitySupport", "IsRemote", "IsInternship",
   "PriorityWithLocalCandidate", "RequiredMilitaryServiceCard"]

/-- Stage 6a: `astype(bool)` over `bool_cols`, guarded by presence. -/
def boolStage (df : DF) : DF :=
  bool_cols.foldl (stepApply astypeBool) df

/-- The fixed list `numeric_cols`. -/
def numeric_cols : List String :=
  ["MinSalary", "MaxSalary", "RequiredMinAge", "RequiredMaxAge"]

/-- Stage 6b: `pd.to_numeric(..., errors="coerce")` over `numeric_cols`. -/
def numStage (df : DF) : DF :=
  numeric_cols.foldl (stepApply toNumeric) df

/-- The in-memory transformation of `preprocess_job_data` (file I/O,
which surrounds it, is outside the embedding). -/
def preprocess_job_data (df : DF) : DF :=
  numStage (boolStage (fillStage (translateStage (dropStage (renameStage df)))))

/- ## Experience-band normalizer (src/visualize_work_experience.py) -/

/-- Band label: intern / no experience. -/
def expBand1 : String :=
  "کارآموز / بدون سابقه"

/-- Band label: junior (1 to 3 years). -/
def expBand2 : String :=
  "کم‌تجربه (۱ تا ۳ سال)"

/-- Band label: mid-level (3 to 7 years). -/
def expBand3 : String :=
  "باتجربه (۳ تا ۷ سال)"

/-- Band label: senior (7 to 10 years). -/
def expBand4 : String :=
  "ارشد (۷ تا ۱۰ سال)"

/-- Band label: very experienced (more than 10 years). -/
def expBand5 : String :=
  "بسیار باتجربه (بیش از ۱۰ سال)"

/-- `categorize_experience`: NaN input modelled as `none`. -/
def categorize_experience (years : Option ℚ) : String :=
  match years with
  | none => unspecLabel
  | some y =>
      if y ≤ 1 then expBand1
      else if 1 < y ∧ y ≤ 3 then expBand2
      else if 3 < y ∧ y ≤ 7 then expBand3
      else if 7 < y ∧ y ≤ 10 then expBand4
      else expBand5

/- ## Seniority normalizer (src/visualize_salary_by_seniority.py) -/

/-- The keyword list `manager_keywords`. -/
def manager_keywords : List String :=
  ["manager", "مدیر", "head",
   "سرپرست", "chief", "رئیس"]

/-- The keyword list `senior_keywords`. -/
def senior_keywords : List String := ["senior", "ارشد"]

/-- The keyword list `junior_keywords`. -/
def junior_keywords : List String :=
  ["junior", "کارآموز", "intern",
   "تازه"]

/-- `any(keyword in title for keyword in kws)`. -/
def anyKeywordIn (kws : List String) (t : String) : Bool :=
  kws.any (fun k => pyContainsStr k t)

/-- Label returned for a manager-keyword match. -/
def managerLabel : String :=
  "مدیر / سرپرست"

/-- Label returned for a senior-keyword match. -/
def seniorLabel : String := "ارشد"

/-- Label returned for a junior-keyword match. -/
def juniorLabel : String :=
  "مقدماتی / کارآموز"

/-- Mid-level default label. -/
def midLabel : String := "سطح میانی"

/-- `categorize_seniority`: lower-case the title, then test the keyword
sets in priority order manager, senior, junior; non-strings give the
unspecified label. -/
def categorize_seniority (title : Value) : String :=
  match title with
  | .vStr s =>
      let t := pyLower s
      if anyKeywordIn manager_keywords t then managerLabel
      else if anyKeywordIn senior_keywords t then seniorLabel
      else if anyKeywordIn junior_keywords t then juniorLabel
      else midLabel
  | _ => unspecLabel

/- ## Company-size normalizer (src/visualize_company_size.py) -/

/-- Pattern `زیر۱۰` (Persian digits U+06F1 U+06F0). -/
def zir10Fa : String := "زیر۱۰"

/-- Pattern `زیر10` (Western digits). -/
def zir10En : String := "زیر10"

/-- Pattern `۱۱۵۰` (Persian digits). -/
def p1150Fa : String := "۱۱۵۰"

/-- Pattern of the localized 51-200 branch exactly as in the source:
`۵۱` in Persian digits (U+06F5 U+06F1) followed by `২০০` in BENGALI
digits (U+09E8 U+09E6 U+09E6), not Persian ones. -/
def p51200Mixed : String := "۵۱২০০"

/-- Pattern `۲۰۱۵۰۰` (Persian digits). -/
def p201500Fa : String := "۲۰۱۵۰۰"

/-- Pattern `۵۰۱۱۰۰۰` (Persian digits). -/
def p5011000Fa : String := "۵۰۱۱۰۰۰"

/-- Pattern `بیشاز۱۰۰۰` (Persian digits). -/
def pBish1000Fa : String := "بیشاز۱۰۰۰"

/-- Pattern `بیشاز1000` (Western digits). -/
def pBish1000En : String := "بیشاز1000"

/-- Connector word `تا` ("to"), removed during normalization. -/
def taaWord : String := "تا"

/-- Unit word `نفر` ("people"), removed during normalization. -/
def nafarWord : String := "نفر"

/-- Tier label `زیر ۱۰ نفر`. -/
def size1Label : String := "زیر ۱۰ نفر"

/-- Tier label `۱۱ تا ۵۰ نفر`. -/
def size2Label : String := "۱۱ تا ۵۰ نفر"

/-- Tier label `۵۱ تا ۲۰۰ نفر` (all digits Persian). -/
def size3Label : String := "۵۱ تا ۲۰۰ نفر"

/-- Tier label `۲۰۱ تا ۵۰۰ نفر`. -/
def size4Label : String := "۲۰۱ تا ۵۰۰ نفر"

/-- Tier label `۵۰۱ تا ۱۰۰۰ نفر`. -/
def size5Label : String := "۵۰۱ تا ۱۰۰۰ نفر"

/-- Tier label `بیش از ۱۰۰۰ نفر`. -/
def size6Label : String :=
  "بیش از ۱۰۰۰ نفر"

/-- The normalization step of `standardize_company_size`: remove spaces,
then the connector word, then the unit word. -/
def sizeNormalize (s : String) : String :=
  pyReplace nafarWord "" (pyReplace taaWord "" (pyReplace " " "" s))

/-- `standardize_company_size`: non-strings give the unspecified label;
otherwise normalize and test the six ordered digit-sequence conditions,
each a localized-script or Western-script literal alternative. -/
def standardize_company_size (v : Value) : String :=
  match v with
  | .vStr s =>
      let n := sizeNormalize s
      if pyContainsStr zir10Fa n || pyContainsStr zir10En n then size1Label
      else if pyContainsStr p1150Fa n || pyContainsStr "1150" n then size2Label
      else if pyContainsStr p51200Mixed n || pyContainsStr "51200" n then size3Label
      else if pyContainsStr p201500Fa n || pyContainsStr "201500" n then size4Label
      else if pyContainsStr p5011000Fa n || pyContainsStr "5011000" n then size5Label
      else if pyContainsStr pBish1000Fa n || pyContainsStr pBish1000En n then size6Label
      else unspecLabel
  | _ => unspecLabel

/- ## JSON model (`json.loads`) for the embedded-list parsers -/

/-- A decoded JSON value as produced by `json.loads` (ints and floats
unified as rationals; truthiness and attribute errors do not depend on
the distinction). -/
inductive Json where
  | null : Json
  | bool (b : Bool) : Json
  | num (q : ℚ) : Json
  | str (s : String) : Json
  | arr (xs : List Json) : Json
  | obj (kvs : List (String × Json)) : Json

/-- The Python exceptions relevant to the two parser functions. -/
inductive PyExc where
  | jsonDecodeError : PyExc
  | typeError : PyExc
  | attributeError : PyExc
  | keyError : PyExc
deriving DecidableEq, Repr

/-- Double-quote character. -/
def qmarkC : Char := Char.ofNat 34

/-- Single-quote character. -/
def aposC : Char := Char.ofNat 39

/-- Opening bracket character. -/
def lbrkC : Char := Char.ofNat 91

/-- Closing bracket character. -/
def rbrkC : Char := Char.ofNat 93

/-- Opening brace character. -/
def lbrcC : Char := Char.ofNat 123

/-- Closing brace character. -/
def rbrcC : Char := Char.ofNat 125

/-- Comma character. -/
def commaC : Char := Char.ofNat 44

/-- Colon character. -/
def colonC : Char := Char.ofNat 58

/-- Backslash character. -/
def bslashC : Char := Char.ofNat 92

/-- JSON insignificant whitespace. -/
def jsonWs (c : Char) : Bool :=
  c = ' ' || c = Char.ofNat 9 || c = Char.ofNat 10 || c = Char.ofNat 13

/-- Skip insignificant whitespace. -/
def skipWs (l : List Char) : List Char := l.dropWhile jsonWs

/-- Value of a hexadecimal digit, if any. -/
def hexVal (c : Char) : Option Nat :=
  if 48 ≤ c.toNat ∧ c.toNat ≤ 57 then some (c.toNat - 48)
  else if 97 ≤ c.toNat ∧ c.toNat ≤ 102 then some (c.toNat - 87)
  else if 65 ≤ c.toNat ∧ c.toNat ≤ 70 then some (c.toNat - 55)
  else none

/-- Strict JSON string body (opening quote already consumed): ordinary
characters, the standard escapes, `\uXXXX`, and a hard error on raw
control characters.  (Surrogate-pair recombination is not modelled; no
input below uses `\u` escapes.) -/
def parseJString : Nat → List Char → Option (String × List Char)
  | 0, _ => none
  | Nat.succ f, l =>
      match l with
      | [] => none
      | c :: cs =>
          if c = qmarkC then some ("", cs)
          else if c = bslashC then
            match cs with
            | [] => none
            | e :: es =>
                if e = qmarkC then
                  (parseJString f es).map (fun r => (String.mk (qmarkC :: r.1.data), r.2))
                else if e = bslashC then
                  (parseJString f es).map (fun r => (String.mk (bslashC :: r.1.data), r.2))
                else if e = '/' then
                  (parseJString f es).map (fun r => (String.mk ('/' :: r.1.data), r.2))
                else if e = 'b' then
                  (parseJString f es).map (fun r => (String.mk (Char.ofNat 8 :: r.1.data), r.2))
                else if e = 'f' then
                  (parseJString f es).map (fun r => (String.mk (Char.ofNat 12 :: r.1.data), r.2))
                else if e = 'n' then
                  (parseJString f es).map (fun r => (String.mk (Char.ofNat 10 :: r.1.data), r.2))
                else if e = 'r' then
                  (parseJString f es).map (fun r => (String.mk (Char.ofNat 13 :: r.1.data), r.2))
                else if e = 't' then
                  (parseJString f es).map (fun r => (String.mk (Char.ofNat 9 :: r.1.data), r.2))
                else if e = 'u' then
                  match es with
                  | a :: b :: c2 :: d :: rest =>
                      match hexVal a, hexVal b, hexVal c2, hexVal d with
                      | some x1, some x2, some x3, some x4 =>
                          (parseJString f rest).map
                            (fun r =>
                              (String.mk (Char.ofNat (((x1 * 16 + x2) * 16 + x3) * 16 + x4) :: r.1.data), r.2))
                      | _, _, _, _ => none
                  | _ => none
                else none
          else if c.toNat < 32 then none
          else (parseJString f cs).map (fun r => (String.mk (c :: r.1.data), r.2))

/-- Strict JSON number: optional minus, integer part without leading
zeros, optional fraction, optional exponent. -/
def parseJNumber (l : List Char) : Option (ℚ × List Char) :=
  let sgn : Bool × List Char :=
    match l with
    | c :: cs => if c = '-' then (true, cs) else (false, l)
    | [] => (false, [])
  let ri := takeDigits sgn.2
  if ri.1.isEmpty then none
  else if 1 < ri.1.length ∧ ri.1.head? = some 0 then none
  else
    let ipart : ℚ := natOfDigits ri.1
    let afterFrac : Option (ℚ × List Char) :=
      match ri.2 with
      | c :: cs =>
          if c = Char.ofNat 46 then
            let rf := takeDigits cs
            if rf.1.isEmpty then none
            else some (ipart + (natOfDigits rf.1 : ℚ) / (10 : ℚ) ^ rf.1.length, rf.2)
          else some (ipart, ri.2)
      | [] => some (ipart, [])
    match afterFrac with
    | none => none
    | some (q, rest) =>
        let afterExp : Option (ℚ × List Char) :=
          match rest with
          | c :: cs =>
              if c = 'e' || c = 'E' then
                let se : Bool × List Char :=
                  match cs with
                  | d :: ds =>
                      if d = '-' then (true, ds)
                      else if d = '+' then (false, ds)
                      else (false, cs)
                  | [] => (false, [])
                let re := takeDigits se.2
                if re.1.isEmpty then none
                else
                  some (if se.1 then q / (10 : ℚ) ^ natOfDigits re.1
                        else q * (10 : ℚ) ^ natOfDigits re.1, re.2)
              else some (q, rest)
          | [] => some (q, [])
        afterExp.map (fun p => (if sgn.1 then -p.1 else p.1, p.2))

/-- Fuel-indexed recursive-descent JSON parser.  `mode = 0` parses one
value; `mode = 1` parses the remaining items of an array (first item
expected next) and wraps them in `Json.arr`; `mode = 2` does the same
for the remaining members of an object.  A single function is used so
that recursion is structural on the fuel and kernel-reducible. -/
def parseJF : Nat → Nat → List Char → Option (Json × List Char)
  | _, 0, _ => none
  | 0, Nat.succ f, l0 =>
      let l := skipWs l0
      match l with
      | [] => none
      | c :: cs =>
          if c = qmarkC then (parseJString (cs.length + 1) cs).map (fun r => (Json.str r.1, r.2))
          else if c = lbrkC then
            match skipWs cs with
            | d :: ds => if d = rbrkC then some (Json.arr [], ds) else parseJF 1 f (d :: ds)
            | [] => none
          else if c = lbrcC then
            match skipWs cs with
            | d :: ds => if d = rbrcC then some (Json.obj [], ds) else parseJF 2 f (d :: ds)
            | [] => none
          else if isPrefixWith charEq ['t', 'r', 'u', 'e'] l then
            some (Json.bool true, List.drop 4 l)
          else if isPrefixWith charEq ['f', 'a', 'l', 's', 'e'] l then
            some (Json.bool false, List.drop 5 l)
          else if isPrefixWith charEq ['n', 'u', 'l', 'l'] l then
            some (Json.null, List.drop 4 l)
          else (parseJNumber l).map (fun r => (Json.num r.1, r.2))
  | 1, Nat.succ f, l =>
      match parseJF 0 f l with
      | some (j, rest) =>
          (match skipWs rest with
           | c :: cs =>
               if c = commaC then
                 match parseJF 1 f cs with
                 | some (Json.arr js, rest2) => some (Json.arr (j :: js), rest2)
                 | _ => none
               else if c = rbrkC then some (Json.arr [j], cs)
               else none
           | [] => none)
      | _ => none
  | 2, Nat.succ f, l =>
      (match skipWs l with
       | c :: cs =>
           if c = qmarkC then
             match parseJString (cs.length + 1) cs with
             | some (k, rest) =>
                 (match skipWs rest with
                  | d :: ds =>
                      if d = colonC then
                        match parseJF 0 f ds with
                        | some (v, rest2) =>
                            (match skipWs rest2 with
                             | e :: es =>
                                 if e = commaC then
                                   match parseJF 2 f es with
                                   | some (Json.obj kvs, rest3) =>
                                       some (Json.obj ((k, v) :: kvs), rest3)
                                   | _ => none
                                 else if e = rbrcC then some (Json.obj [(k, v)], es)
                                 else none
                             | [] => none)
                        | _ => none
                      else none
                  | [] => none)
             | none => none
           else none
       | [] => none)
  | _ + 3, _, _ => none

/-- `json.loads s`: parse one value and require only whitespace after it. -/
def json_loads (s : String) : Option Json :=
  match parseJF 0 (2 * s.data.length + 2) s.data with
  | some (j, rest) => if (skipWs rest).isEmpty then some j else none
  | none => none

/-- The naive quote substitution `s.replace("'", '"')` applied before
parsing. -/
def quoteFix (s : String) : String :=
  pyReplace (String.singleton aposC) (String.singleton qmarkC) s

/-- Python `dict.get`: last binding wins for duplicate keys. -/
def pyGet (kvs : List (String × Json)) (k : String) : Option Json :=
  ((kvs.filter (fun p => p.1 == k)).getLast?).map (fun p => p.2)

/-- Python truthiness of a decoded JSON value. -/
def jtruthy : Json → Bool
  | .null => false
  | .bool b => b
  | .num q => q != 0
  | .str s => s != ""
  | .arr xs => !xs.isEmpty
  | .obj kvs => !kvs.isEmpty

/-- Python `str.strip()` whitespace predicate (ASCII whitespace). -/
def pyStripChar (c : Char) : Bool :=
  c = ' ' || c = Char.ofNat 9 || c = Char.ofNat 10 || c = Char.ofNat 13 ||
  c = Char.ofNat 11 || c = Char.ofNat 12

/-- Python `s.strip()`. -/
def pyStrip (s : String) : String :=
  String.mk (((s.data.dropWhile pyStripChar).reverse.dropWhile pyStripChar).reverse)

/-- Python `key in j`: key test on dicts, substring test on strings,
membership on lists, `TypeError` otherwise. -/
def pyInJson (k : String) : Json → Except PyExc Bool
  | .obj kvs => .ok (kvs.any (fun p => p.1 == k))
  | .str s => .ok (pyContainsStr k s)
  | .arr xs =>
      .ok (xs.any (fun j =>
        match j with
        | .str s2 => s2 == k
        | _ => false))
  | _ => .error .typeError

/-- Python `j[k]` for a string key: dict lookup (or `KeyError`),
`TypeError` on every other value. -/
def pySubscript (j : Json) (k : String) : Except PyExc Json :=
  match j with
  | .obj kvs =>
      match pyGet kvs k with
      | some v => .ok v
      | none => .error .keyError
  | _ => .error .typeError

/- ## `parse_software_skills` (src/visualize_top_skills.py) -/

/-- The list comprehension of `parse_software_skills`, element by
element: a non-dict element raises `AttributeError` at `skill.get`; a
dict without a truthy `TitleFa` is filtered out; a truthy non-string
`TitleFa` raises `AttributeError` at `.strip()`; a string stripping to
empty is filtered out; otherwise the stripped title is kept. -/
def extractSkills : List Json → Except PyExc (List String)
  | [] => .ok []
  | j :: rest =>
      match j with
      | .obj kvs =>
          match pyGet kvs "TitleFa" with
          | none => extractSkills rest
          | some v =>
              if jtruthy v then
                match v with
                | .str s =>
                    let t := pyStrip s
                    if t = "" then extractSkills rest
                    else
                      match extractSkills rest with
                      | .ok r => .ok (t :: r)
                      | .error e => .error e
                | _ => .error .attributeError
              else extractSkills rest
      | _ => .error .attributeError

/-- The `try` body of `parse_software_skills` on a string input. -/
def skillsBody (s : String) : Except PyExc (List String) :=
  match json_loads (quoteFix s) with
  | none => .error .jsonDecodeError
  | some j =>
      match j with
      | .arr elems => extractSkills elems
      | _ => .ok []

/-- `parse_software_skills`: NaN and non-strings give `[]`; otherwise
the body runs with `json.JSONDecodeError` and `TypeError` caught
(returning `[]`) and every other exception propagating. -/
def parse_software_skills (v : Value) : Except PyExc (List String) :=
  match v with
  | .vStr s =>
      match skillsBody s with
      | .ok l => .ok l
      | .error .jsonDecodeError => .ok []
      | .error .typeError => .ok []
      | .error e => .error e
  | _ => .ok []

/- ## `parse_degree_level` (src/visualize_experience_vs_education.py) -/

/-- The `try` body of `parse_degree_level` on a string input. -/
def degreeBody (s : String) : Except PyExc Json :=
  match json_loads (quoteFix s) with
  | none => .error .jsonDecodeError
  | some j =>
      match j with
      | .arr (x :: _) =>
          match pyInJson "DegreeLevel" x with
          | .ok true => pySubscript x "DegreeLevel"
          | .ok false => .ok (.str unspecLabel)
          | .error e => .error e
      | _ => .ok (.str unspecLabel)

/-- `parse_degree_level`: NaN and non-strings give the unspecified
label; otherwise the body runs with `json.JSONDecodeError` and
`TypeError` caught (returning the unspecified label) and every other
exception propagating. -/
def parse_degree_level (v : Value) : Except PyExc Json :=
  match v with
  | .vStr s =>
      match degreeBody s with
      | .ok r => .ok r
      | .error .jsonDecodeError => .ok (.str unspecLabel)
      | .error .typeError => .ok (.str unspecLabel)
      | .error e => .error e
  | _ => .ok (.str unspecLabel)

/-- Does every element of the decoded list avoid the `AttributeError`
paths of `extractSkills`? -/
def goodElem : Json → Bool
  | .obj kvs =>
      match pyGet kvs "TitleFa" with
      | none => true
      | some v =>
          !jtruthy v ||
          (match v with
           | .str _ => true
           | _ => false)
  | _ => false

/-- Inputs on which `parse_software_skills` cannot reach an
`AttributeError`: anything that is not a string, fails to parse, or
parses to a non-list, plus lists all of whose elements are good. -/
def skillsElemsOk (v : Value) : Bool :=
  match v with
  | .vStr s =>
      match json_loads (quoteFix s) with
      | some (Json.arr elems) => elems.all goodElem
      | _ => true
  | _ => true

/- ## Predicates used by the claim statements -/

/-- A cell value is boolean. -/
def isBoolVal : Value → Bool
  | .vBool _ => true
  | _ => false

/-- A cell value is numeric or the missing marker — in particular not a
string. -/
def isNumericOrNull : Value → Bool
  | .vNull => true
  | .vInt _ => true
  | .vFloat _ => true
  | _ => false

/-- A cell value is a string. -/
def isStrVal : Value → Bool
  | .vStr _ => true
  | _ => false

/-- A computation finished without a (modelled) Python exception. -/
def isOkE {ε α : Type} : Except ε α → Bool
  | .ok _ => true
  | .error _ => false

/-- Every cell of column `c` satisfies the Boolean predicate `P`. -/
def colCellsSat (c : String) (P : Value → Bool) (df : DF) : Prop :=
  ∀ r ∈ df.rows, ∀ p ∈ r, p.1 = c → P p.2 = true

/-- The concrete witness input `[{'TitleFa': 'Python'}]`, built from
character constants to spell the single quotes explicitly. -/
def skillsWitnessInput : String :=
  String.mk ([lbrkC, lbrcC, aposC] ++ "TitleFa".data ++ [aposC, colonC, ' ', aposC] ++
    "Python".data ++ [aposC, rbrcC, rbrkC])

/- ## Basic lemmas about the pipeline combinators -/

theorem applyCol_cols (c : String) (f : Value → Value) (df : DF) :
    (applyCol c f df).cols = df.cols := rfl

theorem applyCol_rows_length (c : String) (f : Value → Value) (df : DF) :
    (applyCol c f df).rows.length = df.rows.length := by
  simp [applyCol]

theorem stepApply_cols (f : Value → Value) (d : DF) (c : String) :
    (stepApply f d c).cols = d.cols := by
  rw [stepApply]; split <;> rfl

theorem foldl_stepApply_cols (f : Value → Value) :
    ∀ (l : List String) (d : DF), (l.foldl (stepApply f) d).cols = d.cols := by
  intro l
  induction l with
  | nil => intro d; rfl
  | cons a t ih => intro d; rw [List.foldl_cons, ih, stepApply_cols]

theorem stepApply_rows_length (f : Value → Value) (d : DF) (c : String) :
    (stepApply f d c).rows.length = d.rows.length := by
  rw [stepApply]; split
  · exact applyCol_rows_length c f d
  · rfl

theorem foldl_stepApply_rows_length (f : Value → Value) :
    ∀ (l : List String) (d : DF), (l.foldl (stepApply f) d).rows.length = d.rows.length := by
  intro l
  induction l with
  | nil => intro d; rfl
  | cons a t ih => intro d; rw [List.foldl_cons, ih, stepApply_rows_length]

theorem fillStep_cols (d : DF) (p : String × Value) : (fillStep d p).cols = d.cols := by
  rw [fillStep]; split <;> rfl

theorem fillStep_rows_length (d : DF) (p : String × Value) :
    (fillStep d p).rows.length = d.rows.length := by
  rw [fillStep]; split
  · exact applyCol_rows_length p.1 (fillCell p.2) d
  · rfl

theorem foldl_fillStep_cols :
    ∀ (l : List (String × Value)) (d : DF), (l.foldl fillStep d).cols = d.cols := by
  intro l
  induction l with
  | nil => intro d; rfl
  | cons a t ih => intro d; rw [List.foldl_cons, ih, fillStep_cols]

theorem foldl_fillStep_rows_length :
    ∀ (l : List (String × Value)) (d : DF), (l.foldl fillStep d).rows.length = d.rows.length := by
  intro l
  induction l with
  | nil => intro d; rfl
  | cons a t ih => intro d; rw [List.foldl_cons, ih, fillStep_rows_length]

theorem renameStage_rows_length (df : DF) :
    (renameStage df).rows.length = df.rows.length := by
  simp [renameStage]

theorem dropStage_rows_length (df : DF) :
    (dropStage df).rows.length = df.rows.length := by
  simp [dropStage]

theorem renameStage_cols (df : DF) : (renameStage df).cols = df.cols.map renameCol := rfl

theorem dropStage_cols (df : DF) :
    (dropStage df).cols = df.cols.filter (fun c => !cols_to_drop.contains c) := rfl

/- ## Column-cell invariants across the guarded folds -/

theorem colCellsSat_applyCol_self (c : String) (P : Value → Bool) (f : Value → Value)
    (hf : ∀ v, P (f v) = true) (df : DF) : colCellsSat c P (applyCol c f df) := by
  intro r hr p hp hpc
  simp only [applyCol, List.mem_map] at hr
  obtain ⟨r0, _, rfl⟩ := hr
  simp only [mapKey, List.mem_map] at hp
  obtain ⟨p0, _, rfl⟩ := hp
  by_cases h : p0.1 = c
  · rw [if_pos h]
    exact hf p0.2
  · rw [if_neg h] at hpc
    exact absurd hpc h

theorem colCellsSat_applyCol_other {c c' : String} (P : Value → Bool) (f : Value → Value)
    (hne : c' ≠ c) {df : DF} (h : colCellsSat c P df) :
    colCellsSat c P (applyCol c' f df) := by
  intro r hr p hp hpc
  simp only [applyCol, List.mem_map] at hr
  obtain ⟨r0, hr0, rfl⟩ := hr
  simp only [mapKey, List.mem_map] at hp
  obtain ⟨p0, hp0, rfl⟩ := hp
  by_cases hc : p0.1 = c'
  · rw [if_pos hc] at hpc ⊢
    exact absurd (hc.symm.trans hpc) hne
  · rw [if_neg hc] at hpc ⊢
    exact h r0 hr0 p0 hp0 hpc

theorem colCellsSat_stepApply_preserve (c : String) (P : Value → Bool) (f : Value → Value)
    (hf : ∀ v, P (f v) = true) (d : DF) (h : colCellsSat c P d) (c' : String) :
    colCellsSat c P (stepApply f d c') := by
  rw [stepApply]; split
  · by_cases he : c' = c
    · subst he
      exact colCellsSat_applyCol_self c' P f hf d
    · exact colCellsSat_applyCol_other P f he h
  · exact h

theorem colCellsSat_foldl_preserve (c : String) (P : Value → Bool) (f : Value → Value)
    (hf : ∀ v, P (f v) = true) :
    ∀ (l : List String) (d : DF),
      colCellsSat c P d → colCellsSat c P (l.foldl (stepApply f) d) := by
  intro l
  induction l with
  | nil => intro d h; exact h
  | cons a t ih =>
      intro d h
      rw [List.foldl_cons]
      exact ih _ (colCellsSat_stepApply_preserve c P f hf d h a)

theorem colCellsSat_foldl_establish (c : String) (P : Value → Bool) (f : Value → Value)
    (hf : ∀ v, P (f v) = true) :
    ∀ (l : List String) (d : DF), c ∈ l → c ∈ d.cols →
      colCellsSat c P (l.foldl (stepApply f) d) := by
  intro l
  induction l with
  | nil => intro d hc _; exact absurd hc (List.not_mem_nil c)
  | cons a t ih =>
      intro d hc hin
      rw [List.foldl_cons]
      by_cases he : a = c
      · subst he
        apply colCellsSat_foldl_preserve a P f hf t
        rw [stepApply, if_pos hin]
        exact colCellsSat_applyCol_self a P f hf d
      · rcases List.mem_cons.mp hc with h1 | h2
        · exact absurd h1.symm he
        · exact ih _ h2 (by rw [stepApply_cols]; exact hin)

theorem colCellsSat_foldl_preserve_ne (c : String) (P : Value → Bool) (f : Value → Value) :
    ∀ (l : List String), (∀ a ∈ l, a ≠ c) →
      ∀ (d : DF), colCellsSat c P d → colCellsSat c P (l.foldl (stepApply f) d) := by
  intro l
  induction l with
  | nil => intro _ d h; exact h
  | cons a t ih =>
      intro hne d h
      rw [List.foldl_cons]
      apply ih (fun x hx => hne x (List.mem_cons_of_mem a hx))
      rw [stepApply]; split
      · exact colCellsSat_applyCol_other P f (hne a (List.mem_cons_self a t)) h
      · exact h

/- ## Designated-column facts settled by computation -/

theorem bool_cols_rename_id : ∀ c ∈ bool_cols, renameCol c = c := by decide

theorem bool_cols_not_dropped : ∀ c ∈ bool_cols, cols_to_drop.contains c = false := by decide

theorem numeric_cols_rename_id : ∀ c ∈ numeric_cols, renameCol c = c := by decide

theorem numeric_cols_not_dropped : ∀ c ∈ numeric_cols, cols_to_drop.contains c = false := by decide

theorem numeric_ne_of_mem_bool : ∀ c ∈ bool_cols, ∀ a ∈ numeric_cols, a ≠ c := by decide

/-- Designated column still present after renaming and dropping. -/
theorem mem_cols_after_drop_rename {df : DF} {c : String}
    (hid : renameCol c = c) (hnd : cols_to_drop.contains c = false) (hin : c ∈ df.cols) :
    c ∈ (dropStage (renameStage df)).cols := by
  rw [dropStage_cols, renameStage_cols]
  apply List.mem_filter.mpr
  refine ⟨?_, by show (!cols_to_drop.contains c) = true; rw [hnd]; rfl⟩
  exact hid ▸ List.mem_map_of_mem renameCol hin

theorem astypeBool_isBool (v : Value) : isBoolVal (astypeBool v) = true := rfl

theorem toNumeric_numericOrNull (v : Value) : isNumericOrNull (toNumeric v) = true := by
  cases v with
  | vStr s => cases h : parseNumber s <;> simp [toNumeric, h, isNumericOrNull]
  | vNull => rfl
  | vBool b => rfl
  | vInt n => rfl
  | vFloat q => rfl

theorem translateCell_isStr (v : Value) : isStrVal (translateCell v) = true := rfl

theorem translateStage_rows_length (df : DF) :
    (translateStage df).rows.length = df.rows.length :=
  foldl_stepApply_rows_length translateCell columns_to_clean df

theorem fillStage_rows_length (df : DF) : (fillStage df).rows.length = df.rows.length :=
  foldl_fillStep_rows_length categorical_fills df

theorem boolStage_rows_length (df : DF) : (boolStage df).rows.length = df.rows.length :=
  foldl_stepApply_rows_length astypeBool bool_cols df

theorem numStage_rows_length (df : DF) : (numStage df).rows.length = df.rows.length :=
  foldl_stepApply_rows_length toNumeric numeric_cols df

theorem translateStage_cols (df : DF) : (translateStage df).cols = df.cols :=
  foldl_stepApply_cols translateCell columns_to_clean df

theorem fillStage_cols (df : DF) : (fillStage df).cols = df.cols :=
  foldl_fillStep_cols categorical_fills df

theorem boolStage_cols (df : DF) : (boolStage df).cols = df.cols :=
  foldl_stepApply_cols astypeBool bool_cols df

/- ## Claim theorems -/

/-- C1: the pipeline never drops a row: `preprocess_job_data` returns a
table with exactly as many rows as its input, and so does each
individual transformation stage (column reshaping, translation, fill,
boolean coercion, numeric coercion); only cell values change. -/
theorem C1_pipeline_preserves_row_count (df : DF) :
    (preprocess_job_data df).rows.length = df.rows.length ∧
    (renameStage df).rows.length = df.rows.length ∧
    (dropStage df).rows.length = df.rows.length ∧
    (translateStage df).rows.length = df.rows.length ∧
    (fillStage df).rows.length = df.rows.length ∧
    (boolStage df).rows.length = df.rows.length ∧
    (numStage df).rows.length = df.rows.length := by
  refine ⟨?_, renameStage_rows_length df, dropStage_rows_length df,
    translateStage_rows_length df, fillStage_rows_length df,
    boolStage_rows_length df, numStage_rows_length df⟩
  unfold preprocess_job_data
  rw [numStage_rows_length, boolStage_rows_length, fillStage_rows_length,
    translateStage_rows_length, dropStage_rows_length, renameStage_rows_length]

/-- C2: after the pipeline, every cell of a designated boolean column
that was present in the input is a boolean value; the coercion is Python
truthiness of the present value (the string `"False"` coerces to true
and the empty string to false, so it is not string-literal matching);
and a designated boolean column absent from the table makes the guarded
coercion step a no-op, not an error. -/
theorem C2_bool_columns_two_valued :
    (∀ (df : DF) (c : String), c ∈ bool_cols → c ∈ df.cols →
       ∀ r ∈ (preprocess_job_data df).rows, ∀ p ∈ r, p.1 = c → isBoolVal p.2 = true) ∧
    (∀ v, astypeBool v = Value.vBool (truthy v)) ∧
    astypeBool (Value.vStr "False") = Value.vBool true ∧
    astypeBool (Value.vStr "") = Value.vBool false ∧
    (∀ (d : DF) (c : String), c ∉ d.cols → stepApply astypeBool d c = d) := by
  refine ⟨?_, fun v => rfl, rfl, rfl, fun d c h => by rw [stepApply, if_neg h]⟩
  intro df c hcb hcin
  have hid := bool_cols_rename_id c hcb
  have hnd := bool_cols_not_dropped c hcb
  have hin2 : c ∈ (fillStage (translateStage (dropStage (renameStage df)))).cols := by
    rw [fillStage_cols, translateStage_cols]
    exact mem_cols_after_drop_rename hid hnd hcin
  show colCellsSat c isBoolVal (preprocess_job_data df)
  unfold preprocess_job_data numStage boolStage
  apply colCellsSat_foldl_preserve_ne c isBoolVal toNumeric numeric_cols
    (fun a ha => numeric_ne_of_mem_bool c hcb a ha)
  exact colCellsSat_foldl_establish c isBoolVal astypeBool astypeBool_isBool bool_cols _ hcb hin2

/-- Witness for C2: a one-row table whose `IsRemote` column holds the
string `"False"`; the pipeline leaves a boolean (indeed true) there. -/
theorem C2_bool_columns_two_valued_witness :
    ("IsRemote" ∈ bool_cols) ∧
    ("IsRemote" ∈ (DF.mk ["IsRemote"] [[("IsRemote", Value.vStr "False")]]).cols) ∧
    isBoolVal (("IsRemote", Value.vBool true) : String × Value).2 = true := by
  refine ⟨by decide, by decide, ?_⟩
  exact C2_bool_columns_two_valued.1
    (DF.mk ["IsRemote"] [[("IsRemote", Value.vStr "False")]]) "IsRemote"
    (by decide) (by decide)
    [("IsRemote", Value.vBool true)] (by decide)
    ("IsRemote", Value.vBool true) (by decide) rfl

/-- C3: after the pipeline, every cell of a designated numeric column
that was present in the input is numeric or the missing marker; the
unparsable string `"abc"` coerces to the missing marker (never an
exception and never a residual string, since the satisfied predicate
rejects every string value). -/
theorem C3_numeric_columns_numeric_or_missing :
    (∀ (df : DF) (c : String), c ∈ numeric_cols → c ∈ df.cols →
       ∀ r ∈ (preprocess_job_data df).rows, ∀ p ∈ r, p.1 = c → isNumericOrNull p.2 = true) ∧
    toNumeric (Value.vStr "abc") = Value.vNull ∧
    (∀ v, isNumericOrNull (toNumeric v) = true) ∧
    (∀ s, isNumericOrNull (Value.vStr s) = false) := by
  refine ⟨?_, rfl, toNumeric_numericOrNull, fun s => rfl⟩
  intro df c hcn hcin
  have hid := numeric_cols_rename_id c hcn
  have hnd := numeric_cols_not_dropped c hcn
  have hin2 : c ∈ (boolStage (fillStage (translateStage (dropStage (renameStage df))))).cols := by
    rw [boolStage_cols, fillStage_cols, translateStage_cols]
    exact mem_cols_after_drop_rename hid hnd hcin
  show colCellsSat c isNumericOrNull (preprocess_job_data df)
  unfold preprocess_job_data numStage
  exact colCellsSat_foldl_establish c isNumericOrNull toNumeric toNumeric_numericOrNull
    numeric_cols _ hcn hin2

/-- Witness for C3: a one-row table whose `MinSalary` column holds the
string `"abc"`; the pipeline leaves the missing marker there. -/
theorem C3_numeric_columns_numeric_or_missing_witness :
    ("MinSalary" ∈ numeric_cols) ∧
    ("MinSalary" ∈ (DF.mk ["MinSalary"] [[("MinSalary", Value.vStr "abc")]]).cols) ∧
    isNumericOrNull (("MinSalary", Value.vNull) : String × Value).2 = true := by
  refine ⟨by decide, by decide, ?_⟩
  exact C3_numeric_columns_numeric_or_missing.1
    (DF.mk ["MinSalary"] [[("MinSalary", Value.vStr "abc")]]) "MinSalary"
    (by decide) (by decide)
    [("MinSalary", Value.vNull)] (by decide)
    ("MinSalary", Value.vNull) (by decide) rfl

/-- C10: the boolean coercion maps a missing value to true — the same
result as a genuine true and never false — shown also end-to-end on a
two-row table whose `IsRemote` cells are a missing value and a genuine
true: the cleaned rows are indistinguishable. -/
theorem C10_missing_bool_becomes_true :
    astypeBool Value.vNull = Value.vBool true ∧
    astypeBool Value.vNull = astypeBool (Value.vBool true) ∧
    astypeBool Value.vNull ≠ Value.vBool false ∧
    (preprocess_job_data
        (DF.mk ["IsRemote"]
          [[("IsRemote", Value.vNull)], [("IsRemote", Value.vBool true)]])).rows =
      [[("IsRemote", Value.vBool true)], [("IsRemote", Value.vBool true)]] := by
  exact ⟨rfl, rfl, by decide, by decide⟩

/-- C4: the experience-band normalizer buckets numeric years into five
contiguous, non-overlapping ranges with boundaries y ≤ 1, 1 < y ≤ 3,
3 < y ≤ 7, 7 < y ≤ 10 and 10 < y (characterized by the simple
threshold chain in the last conjunct); the sample inputs 0, 1, 1.5, 10
and 10.1 land in bands 1, 1, 2, 4 and 5, and a missing input yields the
unspecified label. -/
theorem C4_experience_bands :
    categorize_experience none = unspecLabel ∧
    categorize_experience (some 0) = expBand1 ∧
    categorize_experience (some 1) = expBand1 ∧
    categorize_experience (some (mkRat 3 2)) = expBand2 ∧
    categorize_experience (some 10) = expBand4 ∧
    categorize_experience (some (mkRat 101 10)) = expBand5 ∧
    (mkRat 3 2 : ℚ) = 1.5 ∧ (mkRat 101 10 : ℚ) = 10.1 ∧
    (∀ y : ℚ, categorize_experience (some y) =
      if y ≤ 1 then expBand1
      else if y ≤ 3 then expBand2
      else if y ≤ 7 then expBand3
      else if y ≤ 10 then expBand4
      else expBand5) := by
  refine ⟨rfl, by decide, by decide, by decide, by decide, by decide,
    by rw [Rat.mkRat_eq_div]; norm_num, by rw [Rat.mkRat_eq_div]; norm_num, ?_⟩
  intro y
  simp only [categorize_experience]
  rcases le_or_lt y 1 with h1 | h1
  · rw [if_pos h1, if_pos h1]
  · rw [if_neg (not_le.mpr h1), if_neg (not_le.mpr h1)]
    rcases le_or_lt y 3 with h3 | h3
    · rw [if_pos ⟨h1, h3⟩, if_pos h3]
    · rw [if_neg (fun hh => absurd hh.2 (not_le.mpr h3)), if_neg (not_le.mpr h3)]
      rcases le_or_lt y 7 with h7 | h7
      · rw [if_pos ⟨by linarith, h7⟩, if_pos h7]
      · rw [if_neg (fun hh => absurd hh.2 (not_le.mpr h7)), if_neg (not_le.mpr h7)]
        rcases le_or_lt y 10 with h10 | h10
        · rw [if_pos ⟨by linarith, h10⟩, if_pos h10]
        · rw [if_neg (fun hh => absurd hh.2 (not_le.mpr h10)), if_neg (not_le.mpr h10)]

/-- C5: the seniority normalizer lower-cases the title and tests the
keyword sets in priority order with manager first, so every title that
(after lowering) contains both a manager keyword and a senior keyword
gets the manager label. -/
theorem C5_manager_beats_senior (s : String)
    (hm : anyKeywordIn manager_keywords (pyLower s) = true)
    (hs : anyKeywordIn senior_keywords (pyLower s) = true) :
    categorize_seniority (Value.vStr s) = managerLabel := by
  simp only [categorize_seniority]
  rw [if_pos hm]

/-- Witness for C5: the title `"Senior Manager"` contains a senior and a
manager keyword and is classified as manager. -/
theorem C5_manager_beats_senior_witness :
    anyKeywordIn manager_keywords (pyLower "Senior Manager") = true ∧
    anyKeywordIn senior_keywords (pyLower "Senior Manager") = true ∧
    categorize_seniority (Value.vStr "Senior Manager") = managerLabel :=
  ⟨by decide, by decide, C5_manager_beats_senior "Senior Manager" (by decide) (by decide)⟩

/-- C6: evaluation of `standardize_company_size` on the canonical raw
variant of each tier (the variant equals the tier's own label text, all
digits Persian).  Five tiers map to their labels, but the 51-200 tier
variant written with Persian digits falls through to the unspecified
label: the localized alternative of that condition (`p51200Mixed`)
spells its last three digits with Bengali code points, so it never
matches Persian input, while the Western-digit variant of the same tier
still maps correctly; an unrecognized variant maps to unspecified. -/
theorem C6_company_size_bengali_homoglyph :
    standardize_company_size (Value.vStr size1Label) = size1Label ∧
    standardize_company_size (Value.vStr size2Label) = size2Label ∧
    standardize_company_size (Value.vStr size3Label) = unspecLabel ∧
    standardize_company_size (Value.vStr ("51 " ++ taaWord ++ " 200 " ++ nafarWord)) = size3Label ∧
    standardize_company_size (Value.vStr size4Label) = size4Label ∧
    standardize_company_size (Value.vStr size5Label) = size5Label ∧
    standardize_company_size (Value.vStr size6Label) = size6Label ∧
    standardize_company_size (Value.vStr "Under 10") = unspecLabel ∧
    pyContainsStr p51200Mixed (sizeNormalize size3Label) = false ∧
    size3Label ≠ unspecLabel :=
  ⟨rfl, rfl, rfl, rfl, rfl, rfl, rfl, rfl, rfl, by decide⟩

/- ## Lemmas for the Field-Translator round trip (C8) -/

theorem isPrefixWith_nil_pat (eqc : Char → Char → Bool) (l : List Char) :
    isPrefixWith eqc [] l = true := by
  cases l <;> rfl

theorem replaceWithF_no_occurrence (eqc : Char → Char → Bool) (pat repl : List Char) :
    ∀ (f : Nat) (l : List Char), containsWith eqc pat l = false →
      replaceWithF eqc pat repl f l = l := by
  intro f
  induction f with
  | zero => intro l _; cases l <;> rfl
  | succ f ih =>
      intro l h
      cases l with
      | nil => rfl
      | cons c cs =>
          rw [containsWith] at h
          have h1 : isPrefixWith eqc pat (c :: cs) = false := by
            cases hp : isPrefixWith eqc pat (c :: cs)
            · rfl
            · rw [hp] at h; exact absurd h (by simp)
          have h2 : containsWith eqc pat cs = false := by
            cases hp : containsWith eqc pat cs
            · rfl
            · rw [hp] at h; exact absurd h (by simp)
          have hpe : pat.isEmpty = false := by
            cases pat
            · rw [isPrefixWith_nil_pat] at h1; cases h1
            · rfl
          rw [replaceWithF]
          rw [if_neg (by rw [hpe]; exact Bool.false_ne_true)]
          rw [if_neg (by rw [h1]; exact Bool.false_ne_true)]
          rw [ih cs h2]

theorem pyReplace_no_occurrence (pat repl s : String)
    (h : pyContainsStr pat s = false) : pyReplace pat repl s = s := by
  rw [pyReplace, replaceWith,
    replaceWithF_no_occurrence charEq pat.data repl.data s.data.length s.data h]

theorem pyReplaceCI_no_occurrence (pat repl s : String)
    (h : containsCI pat s = false) : pyReplaceCI pat repl s = s := by
  rw [pyReplaceCI, replaceWith,
    replaceWithF_no_occurrence charEqCI pat.data repl.data s.data.length s.data h]

theorem foldl_pyReplaceCI_id :
    ∀ (l : List (String × String)) (s : String),
      (∀ p ∈ l, containsCI p.1 s = false) →
      l.foldl (fun acc p => pyReplaceCI p.1 p.2 acc) s = s := by
  intro l
  induction l with
  | nil => intro s _; rfl
  | cons a t ih =>
      intro s h
      rw [List.foldl_cons, pyReplaceCI_no_occurrence a.1 a.2 s (h a (List.mem_cons_self a t))]
      exact ih s (fun p hp => h p (List.mem_cons_of_mem a hp))

/-- C8: the Field Translator is the identity on clean input: a string
containing no space-surrounded slash separator and no case-insensitive
occurrence of any dictionary source phrase is left unchanged by the
separator-normalization pass followed by the dictionary pass. -/
theorem C8_translator_identity_on_clean (s : String)
    (hsep : pyContainsStr " / " s = false)
    (hdict : ∀ p ∈ english_to_persian_map, containsCI p.1 s = false) :
    translateString s = s := by
  have h1 : sepNormalize s = s := pyReplace_no_occurrence " / " "، " s hsep
  show dictPass (sepNormalize s) = s
  rw [h1]
  show english_to_persian_map.foldl (fun acc p => pyReplaceCI p.1 p.2 acc) s = s
  exact foldl_pyReplaceCI_id english_to_persian_map s hdict

/-- Witness for C8: a fully Persian clean string is untouched by the
translator. -/
theorem C8_translator_identity_on_clean_witness :
    pyContainsStr " / " "فروش" = false ∧
    translateString "فروش" = "فروش" :=
  ⟨by decide, C8_translator_identity_on_clean "فروش" (by decide) (by decide)⟩

/-- C9 counterexample: the translation stage does not pass a missing
value through unchanged — the initial `astype(str)` cast turns a missing
cell of a designated text column into the literal string `"nan"`, both
at cell level and through the stage on a one-row table. -/
theorem C9_counterexample_missing_not_preserved :
    translateCell Value.vNull ≠ Value.vNull ∧
    translateCell Value.vNull = Value.vStr "nan" ∧
    (translateStage (DF.mk ["MainJobCategory"] [[("MainJobCategory", Value.vNull)]])).rows =
      [[("MainJobCategory", Value.vStr "nan")]] :=
  ⟨by decide, by decide, by decide⟩

/-- C9 amended: the Field Translator never raises (it is a total cell
function), but it does not pass non-string and missing values through
unchanged: every cell of a present designated text column is first
converted to its string rendering (missing becomes the literal string
`"nan"`) and then subjected to the replacement passes, so after the
stage every such cell is a string. -/
theorem C9_amended_translator_stringifies :
    (∀ v, translateCell v = Value.vStr (translateString (pyStr v))) ∧
    translateCell Value.vNull = Value.vStr (translateString "nan") ∧
    (∀ (df : DF) (c : String), c ∈ columns_to_clean → c ∈ df.cols →
       ∀ r ∈ (translateStage df).rows, ∀ p ∈ r, p.1 = c → isStrVal p.2 = true) := by
  refine ⟨fun v => rfl, rfl, ?_⟩
  intro df c hcc hcin
  show colCellsSat c isStrVal (translateStage df)
  unfold translateStage
  exact colCellsSat_foldl_establish c isStrVal translateCell translateCell_isStr
    columns_to_clean df hcc hcin

/-- Witness for C9 amended: a one-row table with an integer in
`RawTitle`; after the stage the cell is the string `"5"`. -/
theorem C9_amended_translator_stringifies_witness :
    ("RawTitle" ∈ columns_to_clean) ∧
    isStrVal (("RawTitle", Value.vStr "5") : String × Value).2 = true := by
  refine ⟨by decide, ?_⟩
  exact C9_amended_translator_stringifies.2.2
    (DF.mk ["RawTitle"] [[("RawTitle", Value.vInt 5)]]) "RawTitle" (by decide) (by decide)
    [("RawTitle", Value.vStr "5")] (by decide) ("RawTitle", Value.vStr "5") (by decide) rfl

/- ## Lemmas on the embedded-list parsers (C7) -/

theorem extractSkills_error :
    ∀ (l : List Json) (e : PyExc), extractSkills l = Except.error e →
      e = PyExc.attributeError := by
  intro l
  induction l with
  | nil => intro e h; cases h
  | cons j rest ih =>
      intro e h
      cases j with
      | obj kvs =>
          simp only [extractSkills] at h
          cases hg : pyGet kvs "TitleFa" with
          | none => simp only [hg] at h; exact ih e h
          | some v =>
              simp only [hg] at h
              by_cases ht : jtruthy v = true
              · rw [if_pos ht] at h
                cases v with
                | str s =>
                    simp only [] at h
                    by_cases hts : pyStrip s = ""
                    · rw [if_pos hts] at h; exact ih e h
                    · rw [if_neg hts] at h
                      cases her : extractSkills rest with
                      | ok r => simp only [her] at h; cases h
                      | error e2 =>
                          simp only [her] at h
                          injection h with h2
                          exact h2 ▸ ih e2 her
                | null => injection h with h2; exact h2.symm
                | bool b => injection h with h2; exact h2.symm
                | num q => injection h with h2; exact h2.symm
                | arr xs => injection h with h2; exact h2.symm
                | obj kvs2 => injection h with h2; exact h2.symm
              · rw [if_neg ht] at h; exact ih e h
      | null => simp only [extractSkills] at h; injection h with h2; exact h2.symm
      | bool b => simp only [extractSkills] at h; injection h with h2; exact h2.symm
      | num q => simp only [extractSkills] at h; injection h with h2; exact h2.symm
      | str s => simp only [extractSkills] at h; injection h with h2; exact h2.symm
      | arr xs => simp only [extractSkills] at h; injection h with h2; exact h2.symm

theorem extractSkills_good :
    ∀ (l : List Json), l.all goodElem = true → isOkE (extractSkills l) = true := by
  intro l
  induction l with
  | nil => intro _; rfl
  | cons j rest ih =>
      intro h
      rw [List.all_cons, Bool.and_eq_true] at h
      obtain ⟨hj, hr⟩ := h
      cases j with
      | obj kvs =>
          simp only [extractSkills]
          cases hg : pyGet kvs "TitleFa" with
          | none => simp only [hg]; exact ih hr
          | some v =>
              simp only [goodElem, hg] at hj
              simp only [hg]
              by_cases ht : jtruthy v = true
              · rw [if_pos ht]
                rw [ht, Bool.not_true, Bool.false_or] at hj
                cases v with
                | str s =>
                    simp only []
                    by_cases hts : pyStrip s = ""
                    · rw [if_pos hts]; exact ih hr
                    · rw [if_neg hts]
                      have hok := ih hr
                      cases her : extractSkills rest with
                      | ok r => simp only [her]; rfl
                      | error e => rw [her] at hok; cases hok
                | null => exact absurd hj (by simp)
                | bool b => exact absurd hj (by simp)
                | num q => exact absurd hj (by simp)
                | arr xs => exact absurd hj (by simp)
                | obj kvs2 => exact absurd hj (by simp)
              · rw [if_neg ht]; exact ih hr
      | null => exact absurd hj (by simp [goodElem])
      | bool b => exact absurd hj (by simp [goodElem])
      | num q => exact absurd hj (by simp [goodElem])
      | str s => exact absurd hj (by simp [goodElem])
      | arr xs => exact absurd hj (by simp [goodElem])

theorem skillsBody_error (s : String) (e : PyExc) (h : skillsBody s = Except.error e) :
    e = PyExc.jsonDecodeError ∨ e = PyExc.attributeError := by
  simp only [skillsBody] at h
  cases hj : json_loads (quoteFix s) with
  | none => simp only [hj] at h; injection h with h2; exact Or.inl h2.symm
  | some j =>
      simp only [hj] at h
      cases j with
      | arr elems => exact Or.inr (extractSkills_error elems e h)
      | null => cases h
      | bool b => cases h
      | num q => cases h
      | str s2 => cases h
      | obj kvs => cases h

theorem parse_software_skills_only_attribute_error (v : Value) (e : PyExc)
    (h : parse_software_skills v = Except.error e) : e = PyExc.attributeError := by
  cases v with
  | vStr s =>
      simp only [parse_software_skills] at h
      cases hb : skillsBody s with
      | ok l => simp only [hb] at h; cases h
      | error e2 =>
          simp only [hb] at h
          rcases skillsBody_error s e2 hb with h1 | h1 <;> subst h1
          · simp only [] at h; cases h
          · simp only [] at h
            injection h with h2; exact h2.symm
  | vNull => cases h
  | vBool b => cases h
  | vInt n => cases h
  | vFloat q => cases h

theorem parse_software_skills_ok_of_good (v : Value) (h : skillsElemsOk v = true) :
    isOkE (parse_software_skills v) = true := by
  cases v with
  | vStr s =>
      simp only [skillsElemsOk] at h
      simp only [parse_software_skills, skillsBody]
      cases hj : json_loads (quoteFix s) with
      | none => simp only [hj]; rfl
      | some j =>
          simp only [hj] at h
          simp only [hj]
          cases j with
          | arr elems =>
              have hok := extractSkills_good elems h
              cases her : extractSkills elems with
              | ok l => simp only [her]; rfl
              | error e => rw [her] at hok; cases hok
          | null => rfl
          | bool b => rfl
          | num q => rfl
          | str s2 => rfl
          | obj kvs => rfl
  | vNull => rfl
  | vBool b => rfl
  | vInt n => rfl
  | vFloat q => rfl

theorem pyGet_isSome_of_any {kvs : List (String × Json)} {k : String}
    (h : kvs.any (fun p => p.1 == k) = true) : ∃ v, pyGet kvs k = some v := by
  have hne : kvs.filter (fun p => p.1 == k) ≠ [] := by
    intro hnil
    rw [List.any_eq_true] at h
    obtain ⟨p, hp, hpk⟩ := h
    have hmem : p ∈ kvs.filter (fun q => q.1 == k) := List.mem_filter.mpr ⟨hp, hpk⟩
    rw [hnil] at hmem
    cases hmem
  obtain ⟨p0, hp0⟩ := Option.isSome_iff_exists.mp (List.getLast?_isSome.mpr hne)
  exact ⟨p0.2, by rw [pyGet, hp0]; rfl⟩

theorem pyInJson_error (k : String) (j : Json) (e : PyExc)
    (h : pyInJson k j = Except.error e) : e = PyExc.typeError := by
  cases j with
  | obj kvs => cases h
  | str s => cases h
  | arr xs => cases h
  | null => injection h with h2; exact h2.symm
  | bool b => injection h with h2; exact h2.symm
  | num q => injection h with h2; exact h2.symm

theorem degreeBody_errors_caught (s : String) (e : PyExc)
    (h : degreeBody s = Except.error e) :
    e = PyExc.jsonDecodeError ∨ e = PyExc.typeError := by
  simp only [degreeBody] at h
  cases hj : json_loads (quoteFix s) with
  | none => simp only [hj] at h; injection h with h2; exact Or.inl h2.symm
  | some j =>
      simp only [hj] at h
      cases j with
      | arr xs =>
          cases xs with
          | nil => cases h
          | cons x rest =>
              simp only [] at h
              cases hi : pyInJson "DegreeLevel" x with
              | ok b =>
                  simp only [hi] at h
                  cases b
                  · simp only [] at h; cases h
                  · simp only [] at h
                    cases x with
                    | obj kvs =>
                        injection hi with h2
                        obtain ⟨v0, hv0⟩ := pyGet_isSome_of_any h2
                        simp only [pySubscript, hv0] at h
                        cases h
                    | str s2 =>
                        simp only [pySubscript] at h
                        injection h with h2; exact Or.inr h2.symm
                    | arr ys =>
                        simp only [pySubscript] at h
                        injection h with h2; exact Or.inr h2.symm
                    | null => cases hi
                    | bool b2 => cases hi
                    | num q => cases hi
              | error e2 =>
                  simp only [hi] at h
                  injection h with h2
                  exact Or.inr (h2 ▸ pyInJson_error _ _ _ hi)
      | null => cases h
      | bool b => cases h
      | num q => cases h
      | str s2 => cases h
      | obj kvs => cases h

theorem parse_degree_level_total (v : Value) : isOkE (parse_degree_level v) = true := by
  cases v with
  | vStr s =>
      simp only [parse_degree_level]
      cases hb : degreeBody s with
      | ok r => simp only [hb]; rfl
      | error e =>
          rcases degreeBody_errors_caught s e hb with h1 | h1 <;> subst h1 <;>
            simp only [hb] <;> rfl
  | vNull => rfl
  | vBool b => rfl
  | vInt n => rfl
  | vFloat q => rfl

/-- C7 counterexample: on the valid-JSON input `"[1, 2]"` — a list whose
elements are not mappings — `parse_software_skills` surfaces an uncaught
`AttributeError` (raised at `skill.get` on an int and not in the caught
exception tuple), so the embedded-list parser does not return a list for
every input. -/
theorem C7_counterexample_attribute_error_escapes :
    parse_software_skills (Value.vStr "[1, 2]") = Except.error PyExc.attributeError ∧
    isOkE (parse_software_skills (Value.vStr "[1, 2]")) = false :=
  ⟨rfl, rfl⟩

/-- C7 amended: the single-value extractor `parse_degree_level` is total
— it returns a label for every input and never lets an exception
surface; `parse_software_skills` returns a list (empty on failure) for
every input except when the decoded top level is a list containing a
degenerate element (a non-mapping, or a truthy non-string `TitleFa`
attribute), and the only exception it can ever surface is
`AttributeError`. -/
theorem C7_amended_parsers_total_except_degenerate_elements :
    (∀ v, isOkE (parse_degree_level v) = true) ∧
    (∀ v e, parse_software_skills v = Except.error e → e = PyExc.attributeError) ∧
    (∀ v, skillsElemsOk v = true → isOkE (parse_software_skills v) = true) :=
  ⟨parse_degree_level_total, parse_software_skills_only_attribute_error,
   parse_software_skills_ok_of_good⟩

/-- Witness for C7 amended: the extractor succeeds on `"[1, 2]"`, and the
list parser succeeds on the well-formed input `[{'TitleFa': 'Python'}]`. -/
theorem C7_amended_parsers_witness :
    isOkE (parse_degree_level (Value.vStr "[1, 2]")) = true ∧
    skillsElemsOk (Value.vStr skillsWitnessInput) = true ∧
    isOkE (parse_software_skills (Value.vStr skillsWitnessInput)) = true :=
  ⟨C7_amended_parsers_total_except_degenerate_elements.1 (Value.vStr "[1, 2]"),
   by decide,
   C7_amended_parsers_total_except_degenerate_elements.2.2
     (Value.vStr skillsWitnessInput) (by decide)⟩

end JobVision
